import Mathlib

/-
  Verification of the xingrin frontend against its specification.

  Each section embeds one source module as executable Lean definitions
  (translated from the TypeScript source) and proves the spec claims
  about it.
-/

set_option maxHeartbeats 1000000

namespace ApiParser

/-- A JavaScript runtime value, as far as the response parser inspects it.
Numbers are modelled as rationals (NaN and infinities are not used by the
parser, which never computes on numbers). -/
inductive JSVal where
  | jsNull
  | undefinedV
  | jsBool (b : Bool)
  | num (n : ℚ)
  | str (s : String)
  | arr (elems : List JSVal)
  | obj (fields : List (String × JSVal))

/-- JavaScript typeof x === "object" (true for null, arrays and plain objects). -/
def typeofIsObject : JSVal → Bool
  | .jsNull => true
  | .arr _ => true
  | .obj _ => true
  | _ => false

/-- x === null -/
def isNullV : JSVal → Bool
  | .jsNull => true
  | _ => false

/-- x === undefined -/
def isUndefV : JSVal → Bool
  | .undefinedV => true
  | _ => false

/-- typeof x === "string" -/
def isStringV : JSVal → Bool
  | .str _ => true
  | _ => false

/-- First-match association lookup, the JS object property lookup. -/
def lookupKey (k : String) : List (String × JSVal) → Option JSVal
  | [] => none
  | f :: fs => if f.1 = k then some f.2 else lookupKey k fs

/-- The JS "k in r" test, for the property names the parser uses
(none of which is an array index or array method name). -/
def hasProp (r : JSVal) (k : String) : Bool :=
  match r with
  | .obj fields => (lookupKey k fields).isSome
  | _ => false

/-- Property access r[k]; a missing property reads as undefined. -/
def getProp (r : JSVal) (k : String) : JSVal :=
  match r with
  | .obj fields =>
    match lookupKey k fields with
    | some v => v
    | none => .undefinedV
  | _ => .undefinedV

/-- isErrorResponse from the response parser: the value is a non-null object
whose error property is a non-null object with a string code property. -/
def isErrorResponse (r : JSVal) : Bool :=
  typeofIsObject r && !isNullV r && hasProp r "error" &&
  typeofIsObject (getProp r "error") && !isNullV (getProp r "error") &&
  isStringV (getProp (getProp r "error") "code")

/-- isLegacyResponse: a non-null object with state and code properties whose
state is a string. -/
def isLegacyResponse (r : JSVal) : Bool :=
  typeofIsObject r && !isNullV r && hasProp r "state" && hasProp r "code" &&
  isStringV (getProp r "state")

/-- isLegacyErrorResponse: the JS strict test state !== "success". -/
def isLegacyErrorResponse (r : JSVal) : Bool :=
  match getProp r "state" with
  | .str s => decide (s ≠ "success")
  | _ => true

/-- getErrorCode from the response parser. -/
def getErrorCode (r : JSVal) : Option String :=
  if isErrorResponse r then
    match getProp (getProp r "error") "code" with
    | .str c => some c
    | _ => none
  else if isLegacyResponse r && isLegacyErrorResponse r then
    some "SERVER_ERROR"
  else
    none

/-- parseResponse from the response parser; none models the JS null result. -/
def parseResponse (r : JSVal) : Option JSVal :=
  if isNullV r || isUndefV r then none
  else if isErrorResponse r then none
  else if isLegacyResponse r then
    if isLegacyErrorResponse r then none
    else
      match getProp r "data" with
      | .jsNull => none
      | .undefinedV => none
      | v => some v
  else some r

/-- The current error envelope shape of the claim: the error property is a
plain object whose code property is the string c. -/
def currentEnvelopeCode (r : JSVal) : Option String :=
  match getProp r "error", getProp (getProp r "error") "code" with
  | .obj _, .str c => some c
  | _, _ => none

/-- A bare success payload in the sense of the spec: an object with no error
field and no legacy state or code fields. -/
def bareSuccessPayload (r : JSVal) : Bool :=
  match r with
  | .obj _ => !hasProp r "error" && !hasProp r "state" && !hasProp r "code"
  | _ => false

theorem hasProp_of_getProp_ne_undef {r : JSVal} {k : String}
    (h : getProp r k ≠ JSVal.undefinedV) : hasProp r k = true := by
  cases r with
  | obj fields =>
    simp only [hasProp]
    cases hl : lookupKey k fields with
    | some v => simp
    | none => exact absurd (by simp [getProp, hl]) h
  | jsNull => exact absurd rfl h
  | undefinedV => exact absurd rfl h
  | jsBool b => exact absurd rfl h
  | num n => exact absurd rfl h
  | str s => exact absurd rfl h
  | arr es => exact absurd rfl h

theorem isObj_of_getProp_ne_undef {r : JSVal} {k : String}
    (h : getProp r k ≠ JSVal.undefinedV) :
    typeofIsObject r = true ∧ isNullV r = false := by
  cases r with
  | obj fields => exact ⟨rfl, rfl⟩
  | jsNull => exact absurd rfl h
  | undefinedV => exact absurd rfl h
  | jsBool b => exact absurd rfl h
  | num n => exact absurd rfl h
  | str s => exact absurd rfl h
  | arr es => exact absurd rfl h

theorem isErrorResponse_of_currentEnvelopeCode {r : JSVal} {c : String}
    (h : currentEnvelopeCode r = some c) :
    isErrorResponse r = true ∧ getProp (getProp r "error") "code" = JSVal.str c := by
  unfold currentEnvelopeCode at h
  cases he : getProp r "error" <;> rw [he] at h <;> try simp at h
  next efields =>
  cases hc : getProp (JSVal.obj efields) "code" <;> rw [hc] at h <;> try simp at h
  next c0 =>
  subst h
  have hr : hasProp r "error" = true := hasProp_of_getProp_ne_undef (by rw [he]; simp)
  obtain ⟨ht, hn⟩ := isObj_of_getProp_ne_undef (k := "error") (by rw [he]; simp)
  constructor
  · have h4 : typeofIsObject (JSVal.obj efields) = true := rfl
    have h5 : isNullV (JSVal.obj efields) = false := rfl
    have h6 : isStringV (JSVal.str c0) = true := rfl
    simp only [isErrorResponse, he, hc, ht, hn, hr, h4, h5, h6]
    rfl
  · rfl

/-- C1: getErrorCode returns the inner error code string when the input
matches the current envelope (an object whose error field is an object with
a string code field); it returns the generic code SERVER_ERROR when the
input matches the legacy envelope with a non-success state (and is not a
current-envelope error); and it returns null for a bare success payload,
an object carrying no error field and no legacy state or code fields. -/
theorem C1_getErrorCode_envelopes (r : JSVal) :
    (∀ c : String, currentEnvelopeCode r = some c → getErrorCode r = some c)
    ∧ (isErrorResponse r = false → isLegacyResponse r = true →
        isLegacyErrorResponse r = true → getErrorCode r = some "SERVER_ERROR")
    ∧ (bareSuccessPayload r = true → getErrorCode r = none) := by
  refine ⟨?_, ?_, ?_⟩
  · intro c h
    obtain ⟨he, hc⟩ := isErrorResponse_of_currentEnvelopeCode h
    simp [getErrorCode, he, hc]
  · intro he hl hle
    simp [getErrorCode, he, hl, hle]
  · intro hb
    cases r with
    | obj fields =>
      simp only [bareSuccessPayload, Bool.and_eq_true, Bool.not_eq_true'] at hb
      obtain ⟨⟨h1, h2⟩, h3⟩ := hb
      have he : isErrorResponse (JSVal.obj fields) = false := by
        simp [isErrorResponse, h1]
      have hl : isLegacyResponse (JSVal.obj fields) = false := by
        simp [isLegacyResponse, h2]
      simp [getErrorCode, he, hl]
    | jsNull => simp [bareSuccessPayload] at hb
    | undefinedV => simp [bareSuccessPayload] at hb
    | jsBool b => simp [bareSuccessPayload] at hb
    | num n => simp [bareSuccessPayload] at hb
    | str s => simp [bareSuccessPayload] at hb
    | arr es => simp [bareSuccessPayload] at hb

/-- Witness for C1 at the three concrete payloads of the spec example. -/
theorem C1_witness :
    (currentEnvelopeCode (JSVal.obj [("error", JSVal.obj [("code", JSVal.str "NOT_FOUND")])])
        = some "NOT_FOUND"
      ∧ getErrorCode (JSVal.obj [("error", JSVal.obj [("code", JSVal.str "NOT_FOUND")])])
        = some "NOT_FOUND")
    ∧ getErrorCode (JSVal.obj
        [("state", JSVal.str "error"), ("code", JSVal.str "400"), ("message", JSVal.str "bad")])
        = some "SERVER_ERROR"
    ∧ getErrorCode (JSVal.obj [("count", JSVal.num 3)]) = none := by
  refine ⟨⟨by decide, ?_⟩, ?_, ?_⟩
  · exact (C1_getErrorCode_envelopes _).1 "NOT_FOUND" (by decide)
  · exact (C1_getErrorCode_envelopes _).2.1 (by decide) (by decide) (by decide)
  · exact (C1_getErrorCode_envelopes _).2.2 (by decide)

/-- C9: getErrorCode and parseResponse are complementary: a response that
yields a non-null error code is never parsed as data. -/
theorem C9_error_and_data_exclusive (r : JSVal)
    (h : getErrorCode r ≠ none) : parseResponse r = none := by
  have hnn : isNullV r = false := by
    cases r
    case jsNull => exact absurd (by decide : getErrorCode JSVal.jsNull = none) h
    all_goals rfl
  have hnu : isUndefV r = false := by
    cases r
    case undefinedV => exact absurd (by decide : getErrorCode JSVal.undefinedV = none) h
    all_goals rfl
  by_cases he : isErrorResponse r = true
  · simp [parseResponse, hnn, hnu, he]
  · have he' : isErrorResponse r = false := by simpa using he
    have hl : isLegacyResponse r = true ∧ isLegacyErrorResponse r = true := by
      by_contra hcon
      apply h
      have hb : (isLegacyResponse r && isLegacyErrorResponse r) = false := by
        by_cases h1 : isLegacyResponse r = true
        · by_cases h2 : isLegacyErrorResponse r = true
          · exact absurd ⟨h1, h2⟩ hcon
          · simp only [Bool.not_eq_true] at h2
            simp [h2]
        · simp only [Bool.not_eq_true] at h1
          simp [h1]
      simp [getErrorCode, he', hb]
    simp [parseResponse, hnn, hnu, he', hl.1, hl.2]

/-- Witness for C9 at a concrete legacy error response. -/
theorem C9_witness :
    getErrorCode (JSVal.obj [("state", JSVal.str "error"), ("code", JSVal.str "400")]) ≠ none
    ∧ parseResponse (JSVal.obj [("state", JSVal.str "error"), ("code", JSVal.str "400")])
        = none :=
  ⟨by decide, C9_error_and_data_exclusive _ (by decide)⟩

end ApiParser

namespace AnsiLogViewer

/-- The regex digit class. -/
def isDigitC (c : Char) : Bool := decide ('0' ≤ c) && decide (c ≤ '9')

/-- The JS regex whitespace class, restricted to the whitespace characters
that can occur in a single log line. -/
def isJsSpace (c : Char) : Bool :=
  c = ' ' || c = '\t' || c = '\n' || c = '\r' || c = '\x0b' || c = '\x0c' || c = ' '

/-- The regex word class (ASCII letters, digits, underscore). -/
def isWordC (c : Char) : Bool :=
  (decide ('a' ≤ c) && decide (c ≤ 'z')) || (decide ('A' ≤ c) && decide (c ≤ 'Z')) ||
  isDigitC c || c = '_'

/-- Consume one expected character. -/
def expectChar (c : Char) : List Char → Option (List Char)
  | x :: xs => if x = c then some xs else none
  | [] => none

/-- Consume exactly n digits. -/
def expectDigits : ℕ → List Char → Option (List Char)
  | 0, s => some s
  | _ + 1, [] => none
  | n + 1, c :: cs => if isDigitC c then expectDigits n cs else none

/-- Consume one or more characters of a class, greedily. In each source
regex the class is disjoint from the element that follows it, so greedy
matching agrees with the backtracking regex engine. -/
def many1 (p : Char → Bool) : List Char → Option (List Char)
  | [] => none
  | c :: cs => if p c then some (cs.dropWhile p) else none

/-- Case-insensitive literal word match; returns the rest of the input. -/
def matchCI : List Char → List Char → Option (List Char)
  | [], s => some s
  | _ :: _, [] => none
  | w :: ws, c :: cs => if c.toUpper = w then matchCI ws cs else none

/-- One element of an anchored regex: a literal character, a fixed count of
digits, a greedy one-or-more character class, or a case-insensitive literal
word. -/
inductive Tok where
  | ch (c : Char)
  | digits (n : ℕ)
  | cls (p : Char → Bool)
  | word (w : List Char)

/-- Match a sequence of regex elements from the start of the input and
return the rest. -/
def matchToks : List Tok → List Char → Option (List Char)
  | [], s => some s
  | .ch c :: ts, s =>
    match expectChar c s with
    | some rest => matchToks ts rest
    | none => none
  | .digits n :: ts, s =>
    match expectDigits n s with
    | some rest => matchToks ts rest
    | none => none
  | .cls p :: ts, s =>
    match many1 p s with
    | some rest => matchToks ts rest
    | none => none
  | .word w :: ts, s =>
    match matchCI w s with
    | some rest => matchToks ts rest
    | none => none

/-- The level alternation in source order. WARNING precedes WARN, and when
the input starts with WARNING no shorter alternative can complete any of
the four patterns (the next character is then the letter I), so trying the
alternatives in order without cross-alternative backtracking agrees with
the regex engine. -/
def levelWords : List String := ["DEBUG", "INFO", "WARNING", "WARN", "ERROR", "CRITICAL"]

/-- First alternative whose characters match a prefix of the input
case-insensitively, returned in canonical uppercase form together with the
rest of the input (the JS code uppercases the captured group). -/
def matchLevel : List String → List Char → Option (String × List Char)
  | [], _ => none
  | w :: ws, s =>
    match matchCI w.data s with
    | some rest => some (w, rest)
    | none => matchLevel ws s

/-- Level pattern 1: a full bracketed timestamp, a space, then a bracketed
level. -/
def pat1 (s : List Char) : Option String :=
  match matchToks [.ch '[', .digits 4, .ch '-', .digits 2, .ch '-', .digits 2, .ch ' ',
      .digits 2, .ch ':', .digits 2, .ch ':', .digits 2, .ch ']', .ch ' ', .ch '['] s with
  | none => none
  | some s1 =>
    match matchLevel levelWords s1 with
    | none => none
    | some (w, s2) =>
      match expectChar ']' s2 with
      | some _ => some w
      | none => none

/-- Level pattern 2: the pipe-delimited Prefect format. -/
def pat2 (s : List Char) : Option String :=
  match matchToks [.cls (fun c => isDigitC c || c = ':' || c = '.'), .cls isJsSpace,
      .ch '|', .cls isJsSpace] s with
  | none => none
  | some s1 =>
    match matchLevel levelWords s1 with
    | none => none
    | some (w, s2) =>
      match matchToks [.cls isJsSpace, .ch '|'] s2 with
      | some _ => some w
      | none => none

/-- A colon or whitespace, the class that must follow the level in
pattern 3. -/
def classColonSpace (c : Char) : Bool := c = ':' || isJsSpace c

/-- Pattern 3 after the optional opening bracket: the level, an optional
closing bracket, then a colon or whitespace. The closing bracket is
consumed greedily; since a closing bracket is not in the final class,
declining to consume it could never help the regex engine either. -/
def pat3core (s : List Char) : Option String :=
  match matchLevel levelWords s with
  | none => none
  | some (w, rest) =>
    match rest with
    | ']' :: c :: _ => if classColonSpace c then some w else none
    | [']'] => none
    | c :: _ => if classColonSpace c then some w else none
    | [] => none

/-- Level pattern 3: optionally bracketed bare level. The optional opening
bracket is tried consumed first, then not consumed, as the engine would. -/
def pat3 (s : List Char) : Option String :=
  match s with
  | '[' :: rest =>
    match pat3core rest with
    | some w => some w
    | none => pat3core s
  | _ => pat3core s

/-- Level pattern 4: level, whitespace, hyphen, whitespace. -/
def pat4 (s : List Char) : Option String :=
  match matchLevel levelWords s with
  | none => none
  | some (w, rest) =>
    match matchToks [.cls isJsSpace, .ch '-', .cls isJsSpace] rest with
    | some _ => some w
    | none => none

/-- extractLogLevel: try the four level patterns in order. -/
def extractLogLevel (line : List Char) : Option String :=
  match pat1 line with
  | some w => some w
  | none =>
    match pat2 line with
    | some w => some w
    | none =>
      match pat3 line with
      | some w => some w
      | none => pat4 line

/-- The characters of the CONFIG marker. -/
def configWord : List Char := "CONFIG".data

/-- isNewEntryStart: one of the seven new-entry patterns matches: a
bracketed step marker, a bracketed CONFIG marker, the bracketed CJK
diagnosis marker, a separator of at least ten equals signs and nothing
else, a bracketed date, a clock time, or a Python source location. -/
def isNewEntryStart (line : List Char) : Bool :=
  (matchToks [.ch '[', .cls isDigitC, .ch '/', .cls isDigitC, .ch ']'] line).isSome ||
  (matchToks [.ch '[', .word configWord, .ch ']'] line).isSome ||
  (matchToks [.ch '[', .ch '诊', .ch '断', .ch ']'] line).isSome ||
  (decide (10 ≤ line.length) && line.all (fun c => c = '=')) ||
  (matchToks [.ch '[', .digits 4, .ch '-', .digits 2, .ch '-', .digits 2] line).isSome ||
  (matchToks [.digits 2, .ch ':', .digits 2, .ch ':', .digits 2] line).isSome ||
  (matchToks [.ch '/', .cls (fun c => isWordC c || c = '/'), .ch '.', .ch 'p', .ch 'y',
      .ch ':', .cls isDigitC, .ch ':'] line).isSome

/-- JS toUpperCase for the ASCII level names. -/
def upperStr (s : String) : String := String.mk (s.data.map Char.toUpper)

/-- normalizeLevel: uppercase, then map WARNING to WARN and CRITICAL to
ERROR. -/
def normalizeLevel (l : String) : String :=
  let upper := upperStr l
  if upper = "WARNING" then "WARN"
  else if upper = "CRITICAL" then "ERROR"
  else upper

/-- The JS split on the newline character. -/
def splitNl : List Char → List (List Char)
  | [] => [[]]
  | c :: cs =>
    match splitNl cs with
    | [] => [[c]]
    | l :: ls => if c = '\n' then [] :: l :: ls else (c :: l) :: ls

/-- The JS join with the newline character. -/
def joinNl : List (List Char) → List Char
  | [] => []
  | [l] => l
  | l :: ls => l ++ '\n' :: joinNl ls

/-- One step of the filterByLevel loop: the visibility of the current line
given the visibility of the block so far. -/
def stepVisible (target : String) (vis : Bool) (line : List Char) : Bool :=
  match extractLogLevel line with
  | some e => normalizeLevel e == target
  | none => if isNewEntryStart line then false else vis

/-- The filterByLevel loop over the split lines, keeping each line whose
updated block visibility is true. -/
def filterLinesAux (target : String) : Bool → List (List Char) → List (List Char)
  | _, [] => []
  | vis, l :: ls =>
    if stepVisible target vis l then l :: filterLinesAux target (stepVisible target vis l) ls
    else filterLinesAux target (stepVisible target vis l) ls

/-- filterByLevel from the log viewer. -/
def filterByLevel (content : String) (level : String) : String :=
  if level = "all" then content
  else String.mk (joinNl (filterLinesAux (normalizeLevel level) false (splitNl content.data)))

/-- The step the claim describes: a line without a recognized level always
inherits the previous visibility (no new-entry exception). -/
def claimStep (target : String) (vis : Bool) (line : List Char) : Bool :=
  match extractLogLevel line with
  | some e => normalizeLevel e == target
  | none => vis

/-- The filter the claim describes, built from claimStep. -/
def claimFilterAux (target : String) : Bool → List (List Char) → List (List Char)
  | _, [] => []
  | vis, l :: ls =>
    if claimStep target vis l then l :: claimFilterAux target (claimStep target vis l) ls
    else claimFilterAux target (claimStep target vis l) ls

/-- filterByLevel as the claim describes it. -/
def claimFilterByLevel (content : String) (level : String) : String :=
  if level = "all" then content
  else String.mk (joinNl (claimFilterAux (normalizeLevel level) false (splitNl content.data)))

/-- The visibility a line receives, computed from the reversed list of the
line and all preceding lines: a recognized line compares its normalized
level with the target, a new-entry start is hidden, and any other line
inherits from the nearest preceding line that is recognized or is a
new-entry start (hidden when there is none). -/
def ownerVisible (target : String) : List (List Char) → Bool
  | [] => false
  | l :: before =>
    match extractLogLevel l with
    | some e => normalizeLevel e == target
    | none => if isNewEntryStart l then false else ownerVisible target before

/-- The declarative filter: keep exactly the lines whose owner-derived
visibility is true. -/
def specFilter (target : String) (beforeRev : List (List Char)) :
    List (List Char) → List (List Char)
  | [] => []
  | l :: ls =>
    if ownerVisible target (l :: beforeRev) then l :: specFilter target (l :: beforeRev) ls
    else specFilter target (l :: beforeRev) ls

theorem stepVisible_eq_ownerVisible (target : String) (beforeRev : List (List Char))
    (l : List Char) :
    stepVisible target (ownerVisible target beforeRev) l
      = ownerVisible target (l :: beforeRev) := rfl

theorem filterLinesAux_eq_specFilter (target : String) (ls : List (List Char)) :
    ∀ beforeRev : List (List Char),
      filterLinesAux target (ownerVisible target beforeRev) ls
        = specFilter target beforeRev ls := by
  induction ls with
  | nil => intro beforeRev; rfl
  | cons l t ih =>
    intro beforeRev
    simp only [filterLinesAux, specFilter, stepVisible_eq_ownerVisible]
    by_cases h : ownerVisible target (l :: beforeRev) = true
    · rw [if_pos h, if_pos h, ih (l :: beforeRev)]
    · rw [if_neg h, if_neg h, ih (l :: beforeRev)]

/-- C2 counterexample: under the claim an unrecognized line always inherits
the visibility of the nearest preceding recognized line, so the CONFIG
continuation line after a kept INFO line would be kept; the code instead
hides it because it matches a new-entry start pattern. -/
theorem C2_counterexample :
    extractLogLevel "[CONFIG] x".data = none
    ∧ isNewEntryStart "[CONFIG] x".data = true
    ∧ extractLogLevel "[INFO] hello".data = some "INFO"
    ∧ filterByLevel "[INFO] hello\n[CONFIG] x" "info" = "[INFO] hello"
    ∧ claimFilterByLevel "[INFO] hello\n[CONFIG] x" "info" = "[INFO] hello\n[CONFIG] x"
    ∧ filterByLevel "[INFO] hello\n[CONFIG] x" "info"
        ≠ claimFilterByLevel "[INFO] hello\n[CONFIG] x" "info" :=
  ⟨by decide, by decide, by decide, by decide, by decide, by decide⟩

/-- C2 (amended): for every level other than all, filterByLevel keeps a
recognized line iff its normalized level equals the normalized target; an
unrecognized line that matches a new-entry start pattern is hidden; and
every other unrecognized line inherits the visibility of the nearest
preceding recognized or new-entry-start line (hidden when there is none),
as expressed by the declarative owner-visibility filter. -/
theorem C2_filterByLevel_owner_blocks (content : String) (level : String)
    (h : level ≠ "all") :
    filterByLevel content level
      = String.mk (joinNl (specFilter (normalizeLevel level) [] (splitNl content.data))) := by
  unfold filterByLevel
  rw [if_neg h]
  have he := filterLinesAux_eq_specFilter (normalizeLevel level) (splitNl content.data) []
  simp only [ownerVisible] at he
  rw [he]

/-- Witness for C2 at a concrete multi-line log with a stack-trace
continuation line. -/
theorem C2_witness :
    ("warn" ≠ "all")
    ∧ filterByLevel "[2026-01-07 12:00:00] [WARNING] disk low\n  at frame 1\n[2026-01-07 12:00:01] [INFO] ok" "warn"
      = String.mk (joinNl (specFilter (normalizeLevel "warn") []
          (splitNl ("[2026-01-07 12:00:00] [WARNING] disk low\n  at frame 1\n[2026-01-07 12:00:01] [INFO] ok").data))) :=
  ⟨by decide, C2_filterByLevel_owner_blocks _ _ (by decide)⟩

theorem mem_filterLinesAux_of_level (target : String) (ls : List (List Char)) :
    ∀ (vis : Bool) (line : List Char) (e : String),
      line ∈ ls → extractLogLevel line = some e → (normalizeLevel e == target) = true →
      line ∈ filterLinesAux target vis ls := by
  induction ls with
  | nil =>
    intro vis line e h _ _
    exact absurd h (List.not_mem_nil _)
  | cons l t ih =>
    intro vis line e hmem hex hnorm
    rcases List.mem_cons.mp hmem with hl | hmem'
    · subst hl
      have hv : stepVisible target vis line = true := by
        simp [stepVisible, hex, hnorm]
      simp only [filterLinesAux]
      rw [if_pos hv]
      exact List.mem_cons_self _ _
    · simp only [filterLinesAux]
      by_cases hv : stepVisible target vis l = true
      · rw [if_pos hv]
        exact List.mem_cons_of_mem _ (ih _ _ _ hmem' hex hnorm)
      · rw [if_neg hv]
        exact ih _ _ _ hmem' hex hnorm

/-- C10: filtering by warn also keeps every line whose recognized marker is
WARNING, filtering by error keeps every line whose marker is CRITICAL, and
the per-line visibility decision never distinguishes a WARNING marker from
a WARN marker nor a CRITICAL marker from an ERROR marker. -/
theorem C10_level_synonyms :
    (∀ (ls : List (List Char)) (line : List Char), line ∈ ls →
        extractLogLevel line = some "WARNING" →
        line ∈ filterLinesAux (normalizeLevel "warn") false ls)
    ∧ (∀ (ls : List (List Char)) (line : List Char), line ∈ ls →
        extractLogLevel line = some "CRITICAL" →
        line ∈ filterLinesAux (normalizeLevel "error") false ls)
    ∧ (∀ (target : String) (vis : Bool) (l1 l2 : List Char),
        extractLogLevel l1 = some "WARNING" → extractLogLevel l2 = some "WARN" →
        stepVisible target vis l1 = stepVisible target vis l2)
    ∧ (∀ (target : String) (vis : Bool) (l1 l2 : List Char),
        extractLogLevel l1 = some "CRITICAL" → extractLogLevel l2 = some "ERROR" →
        stepVisible target vis l1 = stepVisible target vis l2) := by
  refine ⟨?_, ?_, ?_, ?_⟩
  · intro ls line hmem hex
    exact mem_filterLinesAux_of_level _ ls false line "WARNING" hmem hex (by decide)
  · intro ls line hmem hex
    exact mem_filterLinesAux_of_level _ ls false line "CRITICAL" hmem hex (by decide)
  · intro target vis l1 l2 h1 h2
    have hn : normalizeLevel "WARNING" = normalizeLevel "WARN" := by decide
    simp [stepVisible, h1, h2, hn]
  · intro target vis l1 l2 h1 h2
    have hn : normalizeLevel "CRITICAL" = normalizeLevel "ERROR" := by decide
    simp [stepVisible, h1, h2, hn]

/-- Witness for C10 at concrete WARNING and CRITICAL lines. -/
theorem C10_witness :
    ("[WARNING] low".data ∈ filterLinesAux (normalizeLevel "warn") false ["[WARNING] low".data])
    ∧ ("12:01:50.419 | CRITICAL | prefect".data
        ∈ filterLinesAux (normalizeLevel "error") false
            ["12:01:50.419 | CRITICAL | prefect".data]) := by
  constructor
  · exact C10_level_synonyms.1 _ _ (List.mem_singleton.mpr rfl) (by decide)
  · exact C10_level_synonyms.2.1 _ _ (List.mem_singleton.mpr rfl) (by decide)

end AnsiLogViewer

namespace AnsiLogViewer

/-- Uppercase hexadecimal digit. -/
def hexDigit (n : ℕ) : Char :=
  if n < 10 then Char.ofNat (48 + n) else Char.ofNat (55 + n)

/-- Hexadecimal digits of a number, most significant first; the first
argument is fuel bounding the number of digits. -/
def hexAux : ℕ → ℕ → List Char
  | 0, _ => []
  | _ + 1, 0 => []
  | fuel + 1, n => hexAux fuel (n / 16) ++ [hexDigit (n % 16)]

/-- Uppercase hexadecimal rendering of a character code (eight digits of
fuel cover every Unicode scalar value). -/
def hexStr (n : ℕ) : List Char := hexAux 8 n

/-- Modelled from the spec: the escapeXML encoding of the third-party
ansi-to-html converter used by the log viewer (the converter library is
not part of this repository). As the source comment documents, the five
XML special characters become named entities and every character at or
above U+0080 becomes an uppercase hexadecimal numeric entity, so that the
CJK string of the comment encodes to the two hexadecimal entities given
there. -/
def escChar (c : Char) : List Char :=
  if c = '&' then "&amp;".data
  else if c = '<' then "&lt;".data
  else if c = '>' then "&gt;".data
  else if c = '"' then "&quot;".data
  else if c.toNat = 39 then "&apos;".data
  else if 128 ≤ c.toNat then "&#x".data ++ hexStr c.toNat ++ [';']
  else [c]

/-- Escape every character of a text. -/
def escapeList : List Char → List Char
  | [] => []
  | c :: cs => escChar c ++ escapeList cs

/-- The HTML-escaped rendering of plain text: what the converter produces
for ANSI-free input, and exactly what highlightSearch computes for the
query before matching it against the rendering. -/
def escapeXML (s : String) : String := String.mk (escapeList s.data)

/-- q occurs literally in t. -/
def occursIn (q t : String) : Prop := ∃ a b : String, t = a ++ q ++ b

theorem escapeList_append (a b : List Char) :
    escapeList (a ++ b) = escapeList a ++ escapeList b := by
  induction a with
  | nil => rfl
  | cons c t ih => simp [escapeList, ih]

/-- C3: highlightSearch escapes the query with the same escapeXML encoding
that escapes the body text, so every literal occurrence of the query in
the original text yields an occurrence of the escaped query in the
HTML-escaped rendering, including multi-byte non-ASCII substrings. -/
theorem C3_escape_locates_occurrences (q t : String) (h : occursIn q t) :
    occursIn (escapeXML q) (escapeXML t) := by
  obtain ⟨a, b, rfl⟩ := h
  refine ⟨escapeXML a, escapeXML b, ?_⟩
  unfold escapeXML
  have hd : (a ++ q ++ b).data = a.data ++ q.data ++ b.data := by
    cases a
    cases q
    cases b
    rfl
  rw [hd, escapeList_append, escapeList_append]
  rfl

/-- Witness for C3: the CJK example documented in the source comment. -/
theorem C3_witness :
    escapeXML "中文" = "&#x4E2D;&#x6587;"
    ∧ occursIn "文" "中文"
    ∧ occursIn (escapeXML "文") (escapeXML "中文") := by
  have h : occursIn "文" "中文" := ⟨"中", "", by decide⟩
  exact ⟨by decide, h, C3_escape_locates_occurrences _ _ h⟩

end AnsiLogViewer

namespace TableUtils

/-- A primitive cell value as an array element; numbers carry their JS
string rendering, which is all the width measurement uses. -/
inductive PrimVal where
  | pnull
  | pundefinedV
  | pbool (b : Bool)
  | pnum (repr : String)
  | pstr (s : String)

/-- The JS String conversion of an array element inside Array.join (null
and undefined join as empty strings). -/
def primJoinStr : PrimVal → String
  | .pnull => ""
  | .pundefinedV => ""
  | .pbool b => cond b "true" "false"
  | .pnum r => r
  | .pstr s => s

/-- A cell value as the width calculator inspects it: null or undefined
cells are skipped, strings may be date-formatted, numbers and booleans are
stringified, arrays of primitives are joined, and other objects are
skipped. -/
inductive CellVal where
  | vnull
  | vundefinedV
  | vbool (b : Bool)
  | vnum (repr : String)
  | vstr (s : String)
  | varr (elems : List PrimVal)
  | vobj

/-- A row is a record of cell values. -/
abbrev Row := List (String × CellVal)

/-- First-match association lookup for row properties. -/
def rowLookupW (k : String) : Row → Option CellVal
  | [] => none
  | f :: fs => if f.1 = k then some f.2 else rowLookupW k fs

/-- row[columnId]; a missing property reads as undefined. -/
def rowGetW (row : Row) (k : String) : CellVal :=
  match rowLookupW k row with
  | some v => v
  | none => .vundefinedV

/-- isISODateString: the anchored ISO-8601 prefix test of the source. -/
def isISODateString (s : String) : Bool :=
  (AnsiLogViewer.matchToks
    [.digits 4, .ch '-', .digits 2, .ch '-', .digits 2, .ch 'T',
     .digits 2, .ch ':', .digits 2, .ch ':', .digits 2] s.data).isSome

/-- The text measured for a cell value, or none when the row loop skips
the cell: skip null and undefined; format ISO date strings with the
environment formatter; use number renderings and boolean words; join
arrays with a comma and space; skip other objects. -/
def cellText (formatDate : String → String → String) (locale : String) :
    CellVal → Option String
  | .vnull => none
  | .vundefinedV => none
  | .vstr s => some (if isISODateString s then formatDate s locale else s)
  | .vnum r => some r
  | .varr xs => some (String.intercalate ", " (xs.map primJoinStr))
  | .vobj => none
  | .vbool b => some (cond b "true" "false")

/-- A column definition as the width calculator reads it. -/
structure WidthColumn where
  accessorKey : Option String
  id : Option String
  size : Option ℚ
  minSize : Option ℚ
  maxSize : Option ℚ
  enableAutoSize : Option Bool

/-- The JS or of two possibly-undefined strings (the empty string is
falsy). -/
def jsOrStr (a b : Option String) : Option String :=
  match a with
  | some s => if s = "" then b else some s
  | none => b

/-- JS truthiness filter for an optional number (zero is falsy; NaN does
not occur among column sizes). -/
def truthyNum (a : Option ℚ) : Option ℚ :=
  match a with
  | some q => if q = 0 then none else some q
  | none => none

/-- The column id: accessorKey or id, with the whole loop iteration
skipped when the result is missing or falsy. -/
def columnIdOf (c : WidthColumn) : Option String :=
  match jsOrStr c.accessorKey c.id with
  | some cid => if cid = "" then none else some cid
  | none => none

/-- First-match label lookup. -/
def lookupLabel (k : String) : List (String × String) → Option String
  | [] => none
  | f :: fs => if f.1 = k then some f.2 else lookupLabel k fs

/-- The header label: headerLabels at the column id, or the column id when
the entry is missing or falsy. -/
def headerLabelFor (headerLabels : List (String × String)) (cid : String) : String :=
  match lookupLabel cid headerLabels with
  | some s => if s = "" then cid else s
  | none => cid

/-- The options record of calculateColumnWidths; the source defaults are
cellPadding 32, maxSampleRows 100 and the zh-CN locale. -/
structure CalcOptions where
  data : List Row
  columns : List WidthColumn
  font : String
  cellPadding : ℚ
  headerFont : String
  headerLabels : List (String × String)
  maxSampleRows : ℕ
  locale : String

/-- The content-measuring fold of one column over the sampled rows,
starting from the header width. -/
def cellsMax (measure : String → String → ℚ) (formatDate : String → String → String)
    (opts : CalcOptions) (cid : String) (init : ℚ) : ℚ :=
  (opts.data.take opts.maxSampleRows).foldl
    (fun acc row =>
      match cellText formatDate opts.locale (rowGetW row cid) with
      | none => acc
      | some t => max acc (measure t opts.font + opts.cellPadding))
    init

/-- Raise to a truthy minSize. -/
def clampMin (c : WidthColumn) (w : ℚ) : ℚ :=
  match truthyNum c.minSize with
  | some m => max w m
  | none => w

/-- Cap at a truthy maxSize. -/
def clampMax (c : WidthColumn) (w : ℚ) : ℚ :=
  match truthyNum c.maxSize with
  | some m => min w m
  | none => w

/-- The unrounded width of one auto-sized column: header label width plus
padding, raised over the sampled cell widths plus padding, then clamped. -/
def autoWidth (measure : String → String → ℚ) (formatDate : String → String → String)
    (opts : CalcOptions) (c : WidthColumn) (cid : String) : ℚ :=
  clampMax c (clampMin c (cellsMax measure formatDate opts cid
    (measure (headerLabelFor opts.headerLabels cid) opts.headerFont + opts.cellPadding)))

/-- Math.ceil as a rational. -/
def ceilQ (q : ℚ) : ℚ := ((Int.ceil q : ℤ) : ℚ)

/-- Record assignment widths[k] = v, modelled as a shadowing prepend: the
record is only ever read through first-match lookup, for which shadowing
is exactly JS assignment. -/
def setWidth (ws : List (String × ℚ)) (k : String) (v : ℚ) : List (String × ℚ) :=
  (k, v) :: ws

/-- Record lookup widths[k]. -/
def lookupWidth (k : String) : List (String × ℚ) → Option ℚ
  | [] => none
  | f :: fs => if f.1 = k then some f.2 else lookupWidth k fs

/-- One iteration of the column loop of calculateColumnWidths: skip
columns without a truthy id; for columns that disable auto-sizing record a
truthy explicit size; otherwise record the rounded-up auto width. -/
def stepColumn (measure : String → String → ℚ) (formatDate : String → String → String)
    (opts : CalcOptions) (ws : List (String × ℚ)) (c : WidthColumn) :
    List (String × ℚ) :=
  match columnIdOf c with
  | none => ws
  | some cid =>
    if c.enableAutoSize = some false then
      match truthyNum c.size with
      | some sz => setWidth ws cid sz
      | none => ws
    else setWidth ws cid (ceilQ (autoWidth measure formatDate opts c cid))

/-- calculateColumnWidths from the table utilities, parameterized by the
canvas text-measuring function and the locale date formatter of the
environment. -/
def calculateColumnWidths (measure : String → String → ℚ)
    (formatDate : String → String → String) (opts : CalcOptions) :
    List (String × ℚ) :=
  opts.columns.foldl (stepColumn measure formatDate opts) []

/-- Replace the data of an options record. -/
def withData (opts : CalcOptions) (d : List Row) : CalcOptions :=
  ⟨d, opts.columns, opts.font, opts.cellPadding, opts.headerFont, opts.headerLabels,
    opts.maxSampleRows, opts.locale⟩

theorem lookupWidth_setWidth_self (ws : List (String × ℚ)) (k : String) (v : ℚ) :
    lookupWidth k (setWidth ws k v) = some v := by
  simp [setWidth, lookupWidth]

theorem lookupWidth_setWidth_other (ws : List (String × ℚ)) (k k2 : String) (v : ℚ)
    (h : k2 ≠ k) :
    lookupWidth k (setWidth ws k2 v) = lookupWidth k ws := by
  simp only [setWidth, lookupWidth]
  rw [if_neg h]

/-- Columns whose id is absent from a list of ids never touch those
widths. -/
theorem lookupWidth_foldl_not_mem (measure : String → String → ℚ)
    (formatDate : String → String → String) (opts : CalcOptions) (cid : String)
    (cols : List WidthColumn) :
    ∀ ws : List (String × ℚ), cid ∉ cols.filterMap columnIdOf →
      lookupWidth cid (cols.foldl (stepColumn measure formatDate opts) ws)
        = lookupWidth cid ws := by
  induction cols with
  | nil => intro ws _; rfl
  | cons c rest ih =>
    intro ws hmem
    rw [List.foldl_cons]
    cases hc : columnIdOf c with
    | none =>
      have hstep : stepColumn measure formatDate opts ws c = ws := by
        simp [stepColumn, hc]
      rw [hstep]
      exact ih ws (by simpa [List.filterMap_cons, hc] using hmem)
    | some k =>
      have hk : k ≠ cid := by
        intro hkk
        exact hmem (by simp [List.filterMap_cons, hc, hkk])
      have hrest : cid ∉ rest.filterMap columnIdOf := by
        intro hcc
        exact hmem (by simp [List.filterMap_cons, hc, hcc])
      have hstep : lookupWidth cid (stepColumn measure formatDate opts ws c)
          = lookupWidth cid ws := by
        simp only [stepColumn, hc]
        by_cases hen : c.enableAutoSize = some false
        · rw [if_pos hen]
          cases hsz : truthyNum c.size with
          | none => rfl
          | some sz => exact lookupWidth_setWidth_other ws cid k sz hk
        · rw [if_neg hen]
          exact lookupWidth_setWidth_other ws cid k _ hk
      rw [ih (stepColumn measure formatDate opts ws c) hrest, hstep]

/-- The per-column width formula holds through the whole fold when the
column ids are unique. -/
theorem lookupWidth_foldl_formula (measure : String → String → ℚ)
    (formatDate : String → String → String) (opts : CalcOptions)
    (cols : List WidthColumn) :
    ∀ ws : List (String × ℚ), (cols.filterMap columnIdOf).Nodup →
      ∀ c ∈ cols, ∀ cid : String, columnIdOf c = some cid →
        ¬(c.enableAutoSize = some false) →
        lookupWidth cid (cols.foldl (stepColumn measure formatDate opts) ws)
          = some (ceilQ (autoWidth measure formatDate opts c cid)) := by
  induction cols with
  | nil =>
    intro ws _ c hmem
    exact absurd hmem (List.not_mem_nil _)
  | cons c0 rest ih =>
    intro ws hnd c hmem cid hcid hen
    rw [List.foldl_cons]
    rcases List.mem_cons.mp hmem with rfl | hmem'
    · have hrest : cid ∉ rest.filterMap columnIdOf := by
        have : (cid :: rest.filterMap columnIdOf).Nodup := by
          simpa [List.filterMap_cons, hcid] using hnd
        exact (List.nodup_cons.mp this).1
      rw [lookupWidth_foldl_not_mem measure formatDate opts cid rest _ hrest]
      simp only [stepColumn, hcid]
      rw [if_neg hen]
      exact lookupWidth_setWidth_self ws cid _
    · have hnd' : (rest.filterMap columnIdOf).Nodup := by
        cases hc0 : columnIdOf c0 with
        | none => simpa [List.filterMap_cons, hc0] using hnd
        | some k =>
          have : (k :: rest.filterMap columnIdOf).Nodup := by
            simpa [List.filterMap_cons, hc0] using hnd
          exact (List.nodup_cons.mp this).2
      exact ih _ hnd' c hmem' cid hcid hen

end TableUtils

namespace DataTable

/-- TanStack pagination state. -/
structure PaginationState where
  pageIndex : ℕ
  pageSize : ℕ
deriving DecidableEq

/-- A pagination update: a plain value or an updater function. -/
inductive PagUpdater where
  | value (p : PaginationState)
  | fn (f : PaginationState → PaginationState)

/-- Resolve an updater against the current state. -/
def applyUpdater : PagUpdater → PaginationState → PaginationState
  | .value p, _ => p
  | .fn f, cur => f cur

/-- Which pagination props the caller supplied. -/
structure PagConfig where
  hasExternalPagination : Bool
  hasOnPaginationChange : Bool
  hasSetExternalPagination : Bool

/-- isExternalPagination from the table component. -/
def isExternalPagination (cfg : PagConfig) : Bool :=
  cfg.hasExternalPagination && (cfg.hasOnPaginationChange || cfg.hasSetExternalPagination)

/-- The observable effect of one pagination update. -/
inductive PagEffect where
  | noop
  | callOnPaginationChange (p : PaginationState)
  | callSetExternalPagination (p : PaginationState)
  | setInternalPagination (p : PaginationState)
deriving DecidableEq

/-- handlePaginationChange from the table component: resolve the updater,
return early when pageIndex and pageSize are unchanged, otherwise notify
the external callback, the external setter, or the internal state. -/
def handlePaginationChange (cfg : PagConfig) (current : PaginationState)
    (u : PagUpdater) : PagEffect :=
  if (applyUpdater u current).pageIndex = current.pageIndex
      ∧ (applyUpdater u current).pageSize = current.pageSize then
    .noop
  else if isExternalPagination cfg then
    if cfg.hasOnPaginationChange then .callOnPaginationChange (applyUpdater u current)
    else if cfg.hasSetExternalPagination then
      .callSetExternalPagination (applyUpdater u current)
    else .noop
  else .setInternalPagination (applyUpdater u current)

/-- C5: a pagination update, delivered as a value or as an updater
function, whose resulting pageIndex and pageSize both equal the current
state causes no state transition and invokes no pagination callback,
external or internal. -/
theorem C5_pagination_noop (cfg : PagConfig) (current : PaginationState) (u : PagUpdater)
    (hi : (applyUpdater u current).pageIndex = current.pageIndex)
    (hs : (applyUpdater u current).pageSize = current.pageSize) :
    handlePaginationChange cfg current u = PagEffect.noop := by
  unfold handlePaginationChange
  rw [if_pos ⟨hi, hs⟩]

/-- Witness for C5 at a concrete no-op update. -/
theorem C5_witness :
    (applyUpdater (PagUpdater.value ⟨2, 10⟩) ⟨2, 10⟩).pageIndex = 2
    ∧ (applyUpdater (PagUpdater.value ⟨2, 10⟩) ⟨2, 10⟩).pageSize = 10
    ∧ handlePaginationChange ⟨true, true, false⟩ ⟨2, 10⟩ (PagUpdater.value ⟨2, 10⟩)
        = PagEffect.noop :=
  ⟨rfl, rfl, C5_pagination_noop ⟨true, true, false⟩ ⟨2, 10⟩ (PagUpdater.value ⟨2, 10⟩) rfl rfl⟩

/-- A JS row value as the table inspects it. -/
inductive RowVal where
  | rnull
  | rundefinedV
  | rbool (b : Bool)
  | rnum (q : ℚ)
  | rstr (s : String)
  | rarrTag
  | robj (fields : List (String × RowVal))

/-- JS truthiness (NaN is not modelled; row arrays are truthy). -/
def truthy : RowVal → Bool
  | .rnull => false
  | .rundefinedV => false
  | .rbool b => b
  | .rnum q => decide (q ≠ 0)
  | .rstr s => decide (s ≠ "")
  | .rarrTag => true
  | .robj _ => true

/-- x === undefined -/
def isRUndef : RowVal → Bool
  | .rundefinedV => true
  | _ => false

/-- x === null -/
def isRNull : RowVal → Bool
  | .rnull => true
  | _ => false

/-- First-match association lookup for row properties. -/
def rowLookup (k : String) : List (String × RowVal) → Option RowVal
  | [] => none
  | f :: fs => if f.1 = k then some f.2 else rowLookup k fs

/-- Property read row[k]; primitives have no id property, and the null and
undefined receivers are never reached behind the truthiness guard. -/
def rowGetProp (r : RowVal) (k : String) : RowVal :=
  match r with
  | .robj fields =>
    match rowLookup k fields with
    | some v => v
    | none => .rundefinedV
  | _ => .rundefinedV

/-- JS String conversion for the values a row id takes; the exact number
rendering does not matter to any claim, only that the result is a string. -/
def rowToString : RowVal → String
  | .rnull => "null"
  | .rundefinedV => "undefined"
  | .rbool b => cond b "true" "false"
  | .rnum q => if q.den = 1 then toString q.num else toString q
  | .rstr s => s
  | .rarrTag => ""
  | .robj _ => "[object Object]"

/-- The default getRowId of the table: the string of row.id, with nullish
coalescing to the empty string. -/
def defaultGetRowId (row : RowVal) : RowVal :=
  .rstr (rowToString (match rowGetProp row "id" with
    | .rnull => .rstr ""
    | .rundefinedV => .rstr ""
    | v => v))

/-- validData from the table component: keep the truthy items whose row id
is not of type undefined (the conjunction short-circuits as in JS). -/
def validData (data : Option (List RowVal)) (getRowId : RowVal → RowVal) : List RowVal :=
  (data.getD []).filter (fun item => truthy item && !isRUndef (getRowId item))

/-- The filter the claim describes: keep the rows that are not null (and
not missing) and whose id is defined. -/
def claimValidData (data : Option (List RowVal)) (getRowId : RowVal → RowVal) :
    List RowVal :=
  (data.getD []).filter
    (fun item => !isRNull item && !isRUndef item && !isRUndef (getRowId item))

/-- C7 counterexample: the empty-string row is non-null and its default id
is a defined string, yet validData filters it out, because the filter
tests JS truthiness, not nullness. -/
theorem C7_counterexample :
    validData (some [RowVal.rstr ""]) defaultGetRowId = []
    ∧ claimValidData (some [RowVal.rstr ""]) defaultGetRowId = [RowVal.rstr ""]
    ∧ isRNull (RowVal.rstr "") = false
    ∧ isRUndef (defaultGetRowId (RowVal.rstr "")) = false :=
  ⟨rfl, rfl, rfl, rfl⟩

/-- C7 (amended): validData contains exactly the input rows that are JS
truthy and whose row id is defined; the default row-id function always
produces a defined string id, so with it exactly the truthy rows remain. -/
theorem C7_validData_truthy_defined :
    (∀ (data : Option (List RowVal)) (g : RowVal → RowVal) (x : RowVal),
      x ∈ validData data g
        ↔ x ∈ data.getD [] ∧ truthy x = true ∧ isRUndef (g x) = false)
    ∧ (∀ x : RowVal, isRUndef (defaultGetRowId x) = false) := by
  constructor
  · intro data g x
    simp [validData, List.mem_filter]
  · intro x
    rfl

/-- The auto-sizing state of the table. -/
structure AutoSizeState where
  columnSizing : List (String × ℚ)
  calculated : Bool

/-- The auto-sizing effect of the table component: return unchanged when
disabled, already calculated, or with no valid data; otherwise run the
calculation (the second component reports that it ran) and commit the
widths and the calculated flag only when the result is nonempty. -/
def autoSizeEffect (enableAutoColumnSizing : Bool) (validDataLen : ℕ)
    (calculatedWidths : List (String × ℚ)) (st : AutoSizeState) :
    AutoSizeState × Bool :=
  if !enableAutoColumnSizing || st.calculated || decide (validDataLen = 0) then (st, false)
  else if decide (0 < calculatedWidths.length) then
    (⟨calculatedWidths, true⟩, true)
  else (st, true)

end DataTable

namespace DataTable

abbrev Selection := List (String × Bool)

def selGet (m : Selection) (k : String) : Option Bool :=
  match m with
  | [] => none
  | f :: fs => if f.1 = k then some f.2 else selGet fs k

abbrev nodupKeys (m : Selection) : Prop := (m.map Prod.fst).Nodup

def selectionChanged (cur prev : Selection) : Bool :=
  decide (cur.length ≠ prev.length)
    || cur.any (fun kv => decide (some kv.2 ≠ selGet prev kv.1))

def runEffect (prev : Selection) : List Selection → List Selection
  | [] => []
  | m :: ms => if selectionChanged m prev then m :: runEffect m ms else runEffect prev ms

def eqSelB (cur prev : Selection) : Bool :=
  cur.all (fun kv => selGet prev kv.1 == some kv.2)
    && prev.all (fun kv => selGet cur kv.1 == some kv.2)

def runSpec (prev : Selection) : List Selection → List Selection
  | [] => []
  | m :: ms => if eqSelB m prev then runSpec prev ms else m :: runSpec m ms

theorem mem_of_selGet_eq_some {m : Selection} {k : String} {v : Bool}
    (h : selGet m k = some v) : (k, v) ∈ m := by
  induction m with
  | nil => simp [selGet] at h
  | cons f fs ih =>
    obtain ⟨fk, fv⟩ := f
    by_cases hk : fk = k
    · simp only [selGet, hk, if_pos] at h
      injection h with hv
      subst hk
      subst hv
      exact List.mem_cons_self _ _
    · simp only [selGet] at h
      rw [if_neg hk] at h
      exact List.mem_cons_of_mem _ (ih h)

theorem selGet_eq_some_of_mem {m : Selection} {k : String} {v : Bool}
    (nd : nodupKeys m) (h : (k, v) ∈ m) : selGet m k = some v := by
  induction m with
  | nil => exact absurd h (List.not_mem_nil _)
  | cons f fs ih =>
    obtain ⟨fk, fv⟩ := f
    simp only [nodupKeys, List.map_cons, List.nodup_cons] at nd
    rcases List.mem_cons.mp h with heq | hmem
    · injection heq with h1 h2
      subst h1
      subst h2
      simp [selGet]
    · have hk : fk ≠ k := by
        intro hfk
        exact nd.1 (hfk ▸ List.mem_map.mpr ⟨(k, v), hmem, rfl⟩)
      simp only [selGet]
      rw [if_neg hk]
      exact ih nd.2 hmem

theorem selGet_eq_none_iff {m : Selection} {k : String} :
    selGet m k = none ↔ k ∉ m.map Prod.fst := by
  induction m with
  | nil => simp [selGet]
  | cons f fs ih =>
    obtain ⟨fk, fv⟩ := f
    by_cases hk : fk = k
    · subst hk
      simp [selGet]
    · have hk2 : ¬ k = fk := fun hh => hk hh.symm
      simp only [selGet, List.map_cons, List.mem_cons]
      rw [if_neg hk, ih]
      simp [hk2]

theorem mem_keys_iff_selGet {m : Selection} {k : String} :
    k ∈ m.map Prod.fst ↔ selGet m k ≠ none := by
  constructor
  · intro h hnone
    exact (selGet_eq_none_iff.mp hnone) h
  · intro h
    by_contra hk
    exact h (selGet_eq_none_iff.mpr hk)

theorem eqSelB_iff {cur prev : Selection}
    (ndc : nodupKeys cur) (ndp : nodupKeys prev) :
    eqSelB cur prev = true ↔ ∀ k, selGet cur k = selGet prev k := by
  unfold eqSelB
  rw [Bool.and_eq_true, List.all_eq_true, List.all_eq_true]
  constructor
  · rintro ⟨h1, h2⟩ k
    cases hc : selGet cur k with
    | some v =>
      have hp := h1 _ (mem_of_selGet_eq_some hc)
      rw [beq_iff_eq] at hp
      rw [hp]
    | none =>
      cases hp : selGet prev k with
      | some w =>
        have hcw := h2 _ (mem_of_selGet_eq_some hp)
        rw [beq_iff_eq] at hcw
        rw [hcw] at hc
        simp at hc
      | none => rfl
  · intro h
    constructor
    · intro kv hm
      rw [beq_iff_eq, ← h kv.1]
      exact selGet_eq_some_of_mem ndc hm
    · intro kv hm
      rw [beq_iff_eq, h kv.1]
      exact selGet_eq_some_of_mem ndp hm

theorem selectionChanged_eq_false_iff {cur prev : Selection}
    (ndc : nodupKeys cur) (ndp : nodupKeys prev) :
    selectionChanged cur prev = false ↔ ∀ k, selGet cur k = selGet prev k := by
  unfold selectionChanged
  rw [Bool.or_eq_false_iff]
  rw [decide_eq_false_iff_not, not_ne_iff]
  rw [List.any_eq_false]
  constructor
  · rintro ⟨hlen, hall⟩ k
    have hall2 : ∀ kv ∈ cur, selGet prev kv.1 = some kv.2 := by
      intro kv hm
      have := hall kv hm
      rw [Bool.not_eq_true, decide_eq_false_iff_not, not_ne_iff] at this
      exact this.symm
    cases hc : selGet cur k with
    | some v =>
      rw [hall2 (k, v) (mem_of_selGet_eq_some hc)]
    | none =>
      have hkc : k ∉ cur.map Prod.fst := selGet_eq_none_iff.mp hc
      have hsub : ∀ x ∈ cur.map Prod.fst, x ∈ prev.map Prod.fst := by
        intro x hx
        obtain ⟨⟨xk, xv⟩, hmemx, rfl⟩ := List.mem_map.mp hx
        exact mem_keys_iff_selGet.mpr (by rw [hall2 _ hmemx]; simp)
      have hcards : (cur.map Prod.fst).toFinset = (prev.map Prod.fst).toFinset := by
        apply Finset.eq_of_subset_of_card_le
        · intro x hx
          rw [List.mem_toFinset] at hx ⊢
          exact hsub x hx
        · rw [List.toFinset_card_of_nodup ndc, List.toFinset_card_of_nodup ndp]
          simp [hlen]
      have hkp : k ∉ prev.map Prod.fst := by
        intro hk
        apply hkc
        rw [← List.mem_toFinset] at hk ⊢
        rw [hcards]
        exact hk
      rw [selGet_eq_none_iff.mpr hkp]
  · intro h
    have hkeys : ∀ x, x ∈ cur.map Prod.fst ↔ x ∈ prev.map Prod.fst := by
      intro x
      rw [mem_keys_iff_selGet, mem_keys_iff_selGet, h x]
    have hfin : (cur.map Prod.fst).toFinset = (prev.map Prod.fst).toFinset := by
      ext x
      rw [List.mem_toFinset, List.mem_toFinset]
      exact hkeys x
    have hlen : cur.length = prev.length := by
      have hcard := congrArg Finset.card hfin
      rw [List.toFinset_card_of_nodup ndc, List.toFinset_card_of_nodup ndp] at hcard
      simpa using hcard
    refine ⟨hlen, ?_⟩
    intro kv hm
    rw [Bool.not_eq_true, decide_eq_false_iff_not, not_ne_iff,
      ← h kv.1, selGet_eq_some_of_mem ndc hm]

theorem selectionChanged_eq_not_eqSelB {cur prev : Selection}
    (ndc : nodupKeys cur) (ndp : nodupKeys prev) :
    selectionChanged cur prev = !eqSelB cur prev := by
  by_cases he : eqSelB cur prev = true
  · rw [he, Bool.not_true]
    exact (selectionChanged_eq_false_iff ndc ndp).mpr ((eqSelB_iff ndc ndp).mp he)
  · have he' : eqSelB cur prev = false := by simpa using he
    rw [he', Bool.not_false]
    by_contra hch
    have hf : selectionChanged cur prev = false := by simpa using hch
    exact he ((eqSelB_iff ndc ndp).mpr ((selectionChanged_eq_false_iff ndc ndp).mp hf))

/-- C4: the selection-change effect fires its callback exactly when the
new selection map differs extensionally from the previously reported one
(different key set or different boolean at some key) and never for an
update extensionally equal to the last reported map; over any render
sequence, the reported selections are exactly those of the declarative
one-per-distinct-state description. -/
theorem C4_selection_callback_distinct :
    (∀ cur prev : Selection, nodupKeys cur → nodupKeys prev →
        (selectionChanged cur prev = false ↔ ∀ k, selGet cur k = selGet prev k))
    ∧ (∀ (prev : Selection) (ms : List Selection), nodupKeys prev →
        (∀ m ∈ ms, nodupKeys m) → runEffect prev ms = runSpec prev ms) := by
  refine ⟨fun cur prev ndc ndp => selectionChanged_eq_false_iff ndc ndp, ?_⟩
  intro prev ms
  induction ms generalizing prev with
  | nil =>
    intro _ _
    rfl
  | cons m t ih =>
    intro ndp hms
    have ndm : nodupKeys m := hms m (List.mem_cons_self _ _)
    have hmt : ∀ x ∈ t, nodupKeys x := fun x hx => hms x (List.mem_cons_of_mem _ hx)
    simp only [runEffect, runSpec, selectionChanged_eq_not_eqSelB ndm ndp]
    by_cases he : eqSelB m prev = true
    · rw [he]
      simp [ih prev ndp hmt]
    · have he' : eqSelB m prev = false := by simpa using he
      rw [he']
      simp [ih m ndm hmt]

/-- Witness for C4: a no-op repeat of the same selection does not fire. -/
theorem C4_witness :
    (selectionChanged [("1", true)] [] = false ↔
        ∀ k, selGet [("1", true)] k = selGet [] k)
    ∧ runEffect [] [[("1", true)], [("1", true)], []]
        = runSpec [] [[("1", true)], [("1", true)], []] := by
  constructor
  · exact C4_selection_callback_distinct.1 [("1", true)] [] (by decide) (by decide)
  · exact C4_selection_callback_distinct.2 [] [[("1", true)], [("1", true)], []]
      (by decide) (by decide)

end DataTable

namespace TableUtils

/-- Concrete measuring environment for the concrete instances: the width
of a text is its character count, dates format to themselves. -/
def cexMeasure (s : String) (_font : String) : ℚ := s.length

/-- Identity date formatter for the concrete instances. -/
def cexFormat (s : String) (_locale : String) : String := s

/-- A column whose maxSize is given as zero. -/
def cexColumn : WidthColumn := ⟨none, some "a", none, none, some 0, none⟩

/-- Options with the zero-maxSize column and no rows. -/
def cexOpts : CalcOptions := ⟨[], [cexColumn], "cell-font", 32, "header-font", [], 100, "zh"⟩

/-- C6 counterexample: the column gives maxSize zero, so under the claim
the computed width would be clamped to at most zero; the code treats the
zero maxSize as falsy and does not clamp, recording the header width plus
padding, which is the positive 33. -/
theorem C6_counterexample :
    cexColumn.maxSize = some 0
    ∧ lookupWidth "a" (calculateColumnWidths cexMeasure cexFormat cexOpts)
        = some (ceilQ (autoWidth cexMeasure cexFormat cexOpts cexColumn "a"))
    ∧ ceilQ (autoWidth cexMeasure cexFormat cexOpts cexColumn "a") = 33
    ∧ ¬((33 : ℚ) ≤ 0) := by
  refine ⟨rfl, ?_, ?_, by norm_num⟩
  · exact lookupWidth_foldl_formula cexMeasure cexFormat cexOpts [cexColumn] [] (by decide)
      cexColumn (List.mem_singleton.mpr rfl) "a" (by decide) (by decide)
  · have ha : autoWidth cexMeasure cexFormat cexOpts cexColumn "a" = 33 := by
      simp only [autoWidth, clampMax, clampMin, cellsMax, truthyNum, cexColumn, cexOpts,
        headerLabelFor, lookupLabel, cexMeasure, List.take_nil, List.foldl_nil]
      have hl : "a".length = 1 := rfl
      rw [hl]
      norm_num
    rw [ha]
    simp only [ceilQ]
    norm_num

/-- A fully constrained auto-sized column for the witness. -/
def witColumn : WidthColumn := ⟨some "a", none, none, some 40, some 200, none⟩

/-- Options with one sampled row for the witness. -/
def witOpts : CalcOptions :=
  ⟨[[("a", CellVal.vstr "hello")]], [witColumn], "cf", 32, "hf", [("a", "Col A")], 100, "en"⟩

end TableUtils

namespace DataTable

open TableUtils

/-- C6 (amended): the width calculation reads at most the first
maxSampleRows rows of the data (the source default is 100); for every
auto-sized column with a truthy id, when the column ids are unique the
recorded width is the header label width plus padding, raised to the
maximum sampled cell width plus padding, clamped by minSize and maxSize
when those are given and nonzero, and rounded up to an integer; and in the
table the calculation is guarded by the calculated flag: once the flag is
set no render runs it again, and a run over nonempty data that produces a
nonempty width map commits the widths and sets the flag. -/
theorem C6_auto_column_widths (measure : String → String → ℚ)
    (formatDate : String → String → String) (opts : CalcOptions) :
    (calculateColumnWidths measure formatDate opts
        = calculateColumnWidths measure formatDate
            (withData opts (opts.data.take opts.maxSampleRows)))
    ∧ ((opts.columns.filterMap columnIdOf).Nodup →
        ∀ c ∈ opts.columns, ∀ cid : String, columnIdOf c = some cid →
          ¬(c.enableAutoSize = some false) →
          lookupWidth cid (calculateColumnWidths measure formatDate opts)
            = some (ceilQ (autoWidth measure formatDate opts c cid)))
    ∧ (∀ (en : Bool) (n : ℕ) (ws : List (String × ℚ)) (st : AutoSizeState),
        st.calculated = true → autoSizeEffect en n ws st = (st, false))
    ∧ (∀ (n : ℕ) (ws : List (String × ℚ)) (st : AutoSizeState),
        st.calculated = false → 0 < n → 0 < ws.length →
        autoSizeEffect true n ws st = (⟨ws, true⟩, true)) := by
  refine ⟨?_, ?_, ?_, ?_⟩
  · have hstep : stepColumn measure formatDate
        (withData opts (opts.data.take opts.maxSampleRows))
        = stepColumn measure formatDate opts := by
      funext ws c
      simp only [stepColumn, autoWidth, cellsMax, withData, List.take_take, min_self]
    simp only [calculateColumnWidths, hstep]
    rfl
  · intro hnd c hm cid hcid hen
    exact lookupWidth_foldl_formula measure formatDate opts opts.columns [] hnd c hm cid
      hcid hen
  · intro en n ws st h
    simp [autoSizeEffect, h]
  · intro n ws st h hn hw
    have h1 : decide (n = 0) = false := by
      simp [Nat.pos_iff_ne_zero.mp hn]
    have h2 : decide (0 < ws.length) = true := decide_eq_true hw
    simp [autoSizeEffect, h, h1, h2]

/-- Witness for C6: a concrete column clamped into range, and the guarded
effect at a calculated state. -/
theorem C6_witness :
    lookupWidth "a" (calculateColumnWidths cexMeasure cexFormat witOpts)
        = some (ceilQ (autoWidth cexMeasure cexFormat witOpts witColumn "a"))
    ∧ autoSizeEffect true 1 [("a", 40)] ⟨[("a", 40)], true⟩ = (⟨[("a", 40)], true⟩, false) := by
  constructor
  · exact (C6_auto_column_widths cexMeasure cexFormat witOpts).2.1 (by decide) witColumn
      (List.mem_singleton.mpr rfl) "a" (by decide) (by decide)
  · exact (C6_auto_column_widths cexMeasure cexFormat witOpts).2.2.1 true 1 [("a", 40)]
      ⟨[("a", 40)], true⟩ rfl

end DataTable

namespace ApiClient

/-- p is a prefix of s. -/
def isPrefixAt : List Char → List Char → Bool
  | [], _ => true
  | _ :: _, [] => false
  | p :: ps, c :: cs => p = c && isPrefixAt ps cs

/-- The JS String.includes test: pat occurs somewhere in s. -/
def includesL : List Char → List Char → Bool
  | [], pat => pat.isEmpty
  | c :: cs, pat => isPrefixAt pat (c :: cs) || includesL cs pat

/-- url.includes on strings. -/
def strIncludes (s pat : String) : Bool := includesL s.data pat.data

/-- The auth-endpoint test of the 401 handler. -/
def isAuthApi (url : String) : Bool :=
  strIncludes url "/auth/login" || strIncludes url "/auth/logout"
    || strIncludes url "/auth/me"

/-- The rejected response as the interceptor inspects it. -/
structure AxiosErrorInfo where
  isAxiosError : Bool
  status : Option ℕ
  url : Option String

/-- The observable outcome of the rejected-response interceptor: an
optional hard redirect, and whether the error is rejected onward. -/
structure InterceptOutcome where
  redirect : Option String
  rejected : Bool
deriving DecidableEq

/-- The 401 handling of the response interceptor; windowDefined models
running in the browser rather than during server-side rendering. -/
def responseErrorInterceptor (windowDefined : Bool) (e : AxiosErrorInfo) :
    InterceptOutcome :=
  ⟨ if e.isAxiosError && e.status == some 401 then
      if !isAuthApi (e.url.getD "") && windowDefined then some "/login" else none
    else none
  , true ⟩

/-- C8: for a failed response with status 401 in the browser, the
interceptor issues the hard redirect to the login route iff the request
url is not an auth endpoint (does not contain the login, logout or me
auth paths), and in every case the error is still rejected to the
caller. -/
theorem C8_unauthorized_redirect (e : AxiosErrorInfo)
    (ha : e.isAxiosError = true) (hs : e.status = some 401) :
    ((responseErrorInterceptor true e).redirect = some "/login"
        ↔ isAuthApi (e.url.getD "") = false)
    ∧ (isAuthApi (e.url.getD "") = true → (responseErrorInterceptor true e).redirect = none)
    ∧ (∀ w : Bool, (responseErrorInterceptor w e).rejected = true) := by
  refine ⟨?_, ?_, fun w => rfl⟩
  · unfold responseErrorInterceptor
    simp only [ha, hs]
    by_cases hu : isAuthApi (e.url.getD "") = true
    · simp [hu]
    · have hu' : isAuthApi (e.url.getD "") = false := by simpa using hu
      simp [hu']
  · intro hu
    unfold responseErrorInterceptor
    simp [ha, hs, hu]

/-- Witness for C8: a 401 on a scan endpoint redirects, a 401 on the auth
probe endpoint does not, and both are rejected. -/
theorem C8_witness :
    ((responseErrorInterceptor true ⟨true, some 401, some "/scans/123/"⟩).redirect
        = some "/login" ↔ isAuthApi "/scans/123/" = false)
    ∧ isAuthApi "/scans/123/" = false
    ∧ (responseErrorInterceptor true ⟨true, some 401, some "/auth/me/"⟩).redirect = none
    ∧ (responseErrorInterceptor true ⟨true, some 401, some "/auth/me/"⟩).rejected = true := by
  refine ⟨(C8_unauthorized_redirect ⟨true, some 401, some "/scans/123/"⟩ rfl rfl).1,
    by decide, (C8_unauthorized_redirect ⟨true, some 401, some "/auth/me/"⟩ rfl rfl).2.1
      (by decide), (C8_unauthorized_redirect ⟨true, some 401, some "/auth/me/"⟩ rfl rfl).2.2 true⟩

end ApiClient
